import Mathlib

/-!
Verification model of the `home-server` repository's configuration builder
(`scripts/build.py`) and inspector (`scripts/ignition_inspector.py`).

Python strings are modelled as lists of Unicode scalar values (`List Nat`);
byte strings as lists of byte values (`List Nat`, each `< 256`).  Fallible
operations (file reads, `dict` key lookups, decoding) return `Except` or
`Option`.  Filesystems are association lists from path strings to file text.
-/

/-- Convert a Lean string literal to its list of Unicode scalar values.
Used to write down concrete Python string values. -/
def str (s : String) : List Nat :=
  s.data.map Char.toNat

/-- A scalar value is a valid Unicode code point (excluding surrogates),
i.e. the code points that a Python `str` built from UTF-8 text can hold. -/
def ValidScalar (n : Nat) : Prop :=
  n < 0xD800 ∨ (0xE000 ≤ n ∧ n < 0x110000)

instance (n : Nat) : Decidable (ValidScalar n) := by
  unfold ValidScalar; infer_instance

/-- All scalars of a text are valid Unicode code points. -/
def ValidText (t : List Nat) : Prop :=
  ∀ c ∈ t, ValidScalar c

instance (t : List Nat) : Decidable (ValidText t) := by
  unfold ValidText; infer_instance

/-- UTF-8 encoding of one scalar value (`str.encode("utf-8")`, per scalar). -/
def utf8EncodeChar (n : Nat) : List Nat :=
  if n < 0x80 then [n]
  else if n < 0x800 then [0xC0 + n / 64, 0x80 + n % 64]
  else if n < 0x10000 then [0xE0 + n / 4096, 0x80 + n / 64 % 64, 0x80 + n % 64]
  else [0xF0 + n / 262144, 0x80 + n / 4096 % 64, 0x80 + n / 64 % 64, 0x80 + n % 64]

/-- UTF-8 encoding of a text (Python `str.encode(encoding="utf-8")`). -/
def utf8Encode (t : List Nat) : List Nat :=
  t.flatMap utf8EncodeChar

/-- A UTF-8 continuation byte. -/
def utf8Cont (x : Nat) : Prop :=
  0x80 ≤ x ∧ x < 0xC0

instance (x : Nat) : Decidable (utf8Cont x) := by
  unfold utf8Cont; infer_instance

/-- Scalar value of a two-byte UTF-8 sequence. -/
def utf8Val2 (b b2 : Nat) : Nat :=
  (b - 0xC0) * 64 + (b2 - 0x80)

/-- Scalar value of a three-byte UTF-8 sequence. -/
def utf8Val3 (b b2 b3 : Nat) : Nat :=
  (b - 0xE0) * 4096 + (b2 - 0x80) * 64 + (b3 - 0x80)

/-- Scalar value of a four-byte UTF-8 sequence. -/
def utf8Val4 (b b2 b3 b4 : Nat) : Nat :=
  (b - 0xF0) * 262144 + (b2 - 0x80) * 4096 + (b3 - 0x80) * 64 + (b4 - 0x80)

/-- A three-byte sequence value that strict decoding rejects: overlong
(below `0x800`) or a surrogate. -/
def utf8Bad3 (v : Nat) : Prop :=
  v < 0x800 ∨ (0xD800 ≤ v ∧ v < 0xE000)

instance (v : Nat) : Decidable (utf8Bad3 v) := by
  unfold utf8Bad3; infer_instance

/-- A four-byte sequence value that strict decoding rejects: overlong
(below `0x10000`) or beyond the Unicode range. -/
def utf8Bad4 (v : Nat) : Prop :=
  v < 0x10000 ∨ 0x110000 ≤ v

instance (v : Nat) : Decidable (utf8Bad4 v) := by
  unfold utf8Bad4; infer_instance

/-- Strict UTF-8 decoding (Python `bytes.decode()`): rejects stray
continuation bytes, truncated sequences, overlong forms, surrogates and
out-of-range values.  Lead bytes `0xC0`/`0xC1` only start overlong two-byte
forms and are rejected outright.  The list patterns enumerate how many
bytes remain. -/
def utf8Decode : List Nat → Option (List Nat)
  | [] => some []
  | [b] =>
    if b < 0x80 then (utf8Decode []).map (b :: ·) else none
  | [b, b2] =>
    if b < 0x80 then (utf8Decode [b2]).map (b :: ·)
    else if b < 0xC2 then none
    else if b < 0xE0 then
      if utf8Cont b2 then (utf8Decode []).map (utf8Val2 b b2 :: ·) else none
    else none
  | [b, b2, b3] =>
    if b < 0x80 then (utf8Decode [b2, b3]).map (b :: ·)
    else if b < 0xC2 then none
    else if b < 0xE0 then
      if utf8Cont b2 then (utf8Decode [b3]).map (utf8Val2 b b2 :: ·) else none
    else if b < 0xF0 then
      if utf8Cont b2 ∧ utf8Cont b3 then
        if utf8Bad3 (utf8Val3 b b2 b3) then none
        else (utf8Decode []).map (utf8Val3 b b2 b3 :: ·)
      else none
    else none
  | b :: b2 :: b3 :: b4 :: r =>
    if b < 0x80 then (utf8Decode (b2 :: b3 :: b4 :: r)).map (b :: ·)
    else if b < 0xC2 then none
    else if b < 0xE0 then
      if utf8Cont b2 then (utf8Decode (b3 :: b4 :: r)).map (utf8Val2 b b2 :: ·) else none
    else if b < 0xF0 then
      if utf8Cont b2 ∧ utf8Cont b3 then
        if utf8Bad3 (utf8Val3 b b2 b3) then none
        else (utf8Decode (b4 :: r)).map (utf8Val3 b b2 b3 :: ·)
      else none
    else if b < 0xF5 then
      if utf8Cont b2 ∧ utf8Cont b3 ∧ utf8Cont b4 then
        if utf8Bad4 (utf8Val4 b b2 b3 b4) then none
        else (utf8Decode r).map (utf8Val4 b b2 b3 b4 :: ·)
      else none
    else none

/-- The standard base64 alphabet, as scalar values. -/
def b64Alphabet : List Nat :=
  str "ABCDEFGHIJKLMNOPQRSTUVWXYZabcdefghijklmnopqrstuvwxyz0123456789+/"

/-- The base64 digit for a sextet. -/
def b64Char (n : Nat) : Nat :=
  b64Alphabet.getD n 0

/-- Index of a character in a list (leftmost occurrence). -/
def idxIn : List Nat → Nat → Option Nat
  | [], _ => none
  | a :: t, c => if a = c then some 0 else (idxIn t c).map (· + 1)

/-- The sextet value of a base64 digit, if any. -/
def b64CharIndex (c : Nat) : Option Nat :=
  idxIn b64Alphabet c

/-- Model of `base64.standard_b64encode` on a byte string: standard alphabet with
`=` padding. -/
def b64encode : List Nat → List Nat
  | [] => []
  | [a] => [b64Char (a / 4), b64Char (a % 4 * 16), 61, 61]
  | [a, b] => [b64Char (a / 4), b64Char (a % 4 * 16 + b / 16), b64Char (b % 16 * 4), 61]
  | a :: b :: c :: rest =>
    b64Char (a / 4) :: b64Char (a % 4 * 16 + b / 16) ::
      b64Char (b % 16 * 4 + c / 64) :: b64Char (c % 64) :: b64encode rest

/-- Model of `base64.standard_b64decode` on well-formed input: groups of four base64
digits, with `=` padding only at the end; `none` models the exceptions the
Python decoder raises on malformed input. -/
def b64decode : List Nat → Option (List Nat)
  | [] => some []
  | c1 :: c2 :: c3 :: c4 :: rest =>
    (b64CharIndex c1).bind fun s1 =>
    (b64CharIndex c2).bind fun s2 =>
    if c3 = 61 ∧ c4 = 61 ∧ rest = [] then some [s1 * 4 + s2 / 16]
    else if c4 = 61 ∧ rest = [] then
      (b64CharIndex c3).bind fun s3 => some [s1 * 4 + s2 / 16, s2 % 16 * 16 + s3 / 4]
    else
      (b64CharIndex c3).bind fun s3 =>
      (b64CharIndex c4).bind fun s4 =>
      (b64decode rest).map fun bs =>
        (s1 * 4 + s2 / 16) :: (s2 % 16 * 16 + s3 / 4) :: (s3 % 4 * 64 + s4) :: bs
  | _ => none

/-- Python substring test `pat in s`: does `pat` occur contiguously in `s`? -/
def containsSubstr : List Nat → List Nat → Bool
  | s, pat =>
    match s with
    | [] => pat.isEmpty
    | _ :: t => pat.isPrefixOf s || containsSubstr t pat

/-- The suffix of `s` after the first occurrence of `pat`
(`s.partition(pat)[2]`): `[]` when `pat` does not occur. -/
def dropAfter (pat : List Nat) : List Nat → List Nat
  | [] => []
  | c :: t => if pat.isPrefixOf (c :: t) then (c :: t).drop pat.length else dropAfter pat t

/-- The suffix of `s` after the first comma, if any
(`s.split(",", 1)[1]` guarded by `IndexError`). -/
def afterComma : List Nat → Option (List Nat)
  | [] => none
  | c :: t => if c = 44 then some t else afterComma t

/-- There is a split `u = b ++ [c1, c2] ++ c` where `b` (possibly empty)
contains no newline: the closing delimiter of a `.*c1c2`-shaped regex tail
is reachable without crossing a newline. -/
def closeNow (c1 c2 : Nat) : List Nat → Bool
  | x :: y :: t => (x == c1 && y == c2) || (x != 10 && closeNow c1 c2 (y :: t))
  | _ => false

/-- There is a split `u = b ++ [c1, c2] ++ c` where `b` is non-empty and
contains no newline: the `.+c1c2` regex tail matches a prefix of `u`
extended arbitrarily. -/
def closeAfterOne (c1 c2 : Nat) : List Nat → Bool
  | z :: rest => z != 10 && closeNow c1 c2 rest
  | [] => false

/-- Existence of a match of the regex `o1 o2 .+ c1 c2` somewhere in `s`, per
Python `re.search` semantics (`.` matches any character except a newline,
`.+` one or more of them): some position starts with the two opening
characters, followed — after one or more non-newline characters — by the two
closing characters. -/
def findOpen (o1 o2 c1 c2 : Nat) : List Nat → Bool
  | x :: y :: t => (x == o1 && y == o2 && closeAfterOne c1 c2 t) || findOpen o1 o2 c1 c2 (y :: t)
  | _ => false

/-- Function `is_jinja` from `scripts/build.py`:
`re.search("{{.+}}", string) or re.search("{%.+%}", string)`.
Scalar values: `{` = 123, `}` = 125, `%` = 37, newline = 10. -/
def is_jinja (s : List Nat) : Bool :=
  findOpen 123 123 125 125 s || findOpen 123 37 37 125 s

/-- Function `create_utf8_data_source` from `scripts/build.py`: UTF-8 encode, base64
encode, and prepend the data-URI header. -/
def create_utf8_data_source (s : List Nat) : List Nat :=
  str "data:text/plain;charset=utf-8;base64," ++ b64encode (utf8Encode s)

/-- Errors a build or inspection can raise (Python exception classes). -/
inductive Err where
  /-- Exception `FileNotFoundError` from `pathlib.Path.read_text` on a missing file. -/
  | fileNotFound : Err
  /-- Exception `KeyError` from indexing a `dict` with an absent key. -/
  | keyError : Err
  /-- Exception `jinja2.TemplateSyntaxError` (or any other template error). -/
  | templateError : Err
  deriving DecidableEq

/-- The `contents` object of a File Entry (`contents.source` is optional). -/
structure FileContents where
  source : Option (List Nat)
  deriving DecidableEq

/-- A File Entry of `storage.files`: the `contents` object itself may be
absent, `mode` is an optional integer. -/
structure FileEntry where
  path : List Nat
  mode : Option Nat
  contents : Option FileContents
  deriving DecidableEq

/-- A systemd dropin: `name` plus an optional `contents` string (the code
indexes `dropin["contents"]` directly, so absence raises `KeyError`). -/
structure Dropin where
  name : List Nat
  contents : Option (List Nat)
  deriving DecidableEq

/-- A Unit Entry of `systemd.units`: `name` plus an optional `dropins`
list. -/
structure SystemdUnit where
  name : List Nat
  dropins : Option (List Dropin)
  deriving DecidableEq

/-- The Structural Document: `storage.files` and `systemd.units`. -/
structure IgnitionConfig where
  files : List FileEntry
  units : List SystemdUnit
  deriving DecidableEq

/-- A filesystem: an association list from path to file text. -/
def FS : Type := List (List Nat × List Nat)

/-- Read a file (`pathlib.Path.read_text`): `none` when the path is absent. -/
def readFS (fs : FS) (p : List Nat) : Option (List Nat) :=
  match fs with
  | [] => none
  | (q, c) :: t => if q = p then some c else readFS t p

/-- Python `"/...".lstrip("/")` followed by `FILES.joinpath`: the backing
asset of a File Entry lives under `files/` at the entry's path minus its
leading slashes (path components here are relative, as in the repository's
asset tree). -/
def assetKey (path : List Nat) : List Nat :=
  let stripped := path.dropWhile (· = 47)
  if stripped = [] then str "files" else str "files/" ++ stripped

/-- Python `name.rsplit(".", maxsplit=1)[0]`: everything before the final
dot, or the whole string when it has no dot. -/
def rsplitBase (s : List Nat) : List Nat :=
  if 46 ∈ s then (((s.reverse.dropWhile (· ≠ 46))).drop 1).reverse else s

/-- The override asset path for a dropin of a unit:
`SYSTEMD.joinpath(f"{unit_name}.d").joinpath(dropin["name"])` with
`unit_name = unit["name"].rsplit(".", 1)[0]` (relative path components, as
in the repository's asset tree). -/
def dropinAssetKey (unitName dropinName : List Nat) : List Nat :=
  str "systemd/" ++ rsplitBase unitName ++ str ".d/" ++ dropinName

/-- A node of a parsed template: literal text, or a `{{ name }}` variable
substitution.  Covers the template features the claims exercise. -/
inductive JinjaNode where
  | lit (text : List Nat) : JinjaNode
  | var (name : List Nat) : JinjaNode
  deriving DecidableEq

/-- Lookup of a variable in the Variable Mapping. -/
def lookupVar (vars : List (List Nat × List Nat)) (n : List Nat) : Option (List Nat) :=
  match vars with
  | [] => none
  | (k, v) :: t => if k = n then some v else lookupVar t n

/-- Modelled from jinja2 (an external library): `jinja2.Template(src).render(...)`
as invoked by `IgnitionBuilder._first_pass` and `_set_file_source` builds the
template with jinja2's default `Undefined` class — it was not given
`undefined=jinja2.StrictUndefined` — so a reference to a name absent from the
mapping renders as the empty string instead of raising.  The `Except` result
type records that rendering is where jinja2 would raise if it ever did. -/
def jinjaRenderDefault (vars : List (List Nat × List Nat)) :
    List JinjaNode → Except Err (List Nat)
  | [] => .ok []
  | .lit t :: rest => (jinjaRenderDefault vars rest).map (t ++ ·)
  | .var n :: rest => (jinjaRenderDefault vars rest).map ((lookupVar vars n).getD [] ++ ·)

/-- The template references the variable `n`. -/
def referencesVar (t : List JinjaNode) (n : List Nat) : Prop :=
  JinjaNode.var n ∈ t

/-- Method `IgnitionBuilder._set_file_source`: resolve one File Entry's content.
`render` stands for `jinja2.Template(source).render(self._vars)` applied to
the inline template string (kept as a parameter; jinja2 is an external
library).  Mirrors the Python control flow: read `contents.source` with
defaulted lookups; when it is empty read the backing asset (raising
`FileNotFoundError` when missing); when it looks like a template render it;
otherwise return unchanged; in the two resolving branches the write-back
`file["contents"]["source"] = ...` raises `KeyError` when the entry has no
`contents` object. -/
def set_file_source (render : List Nat → Except Err (List Nat)) (fs : FS)
    (e : FileEntry) : Except Err FileEntry :=
  let source := ((e.contents.getD ⟨none⟩).source).getD []
  if source = [] then
    match readFS fs (assetKey e.path) with
    | none => .error .fileNotFound
    | some content =>
      match e.contents with
      | none => .error .keyError
      | some c =>
        .ok { e with contents := some { c with source := some (create_utf8_data_source content) } }
  else if is_jinja source then
    match render source with
    | .error err => .error err
    | .ok content =>
      match e.contents with
      | none => .error .keyError
      | some c =>
        .ok { e with contents := some { c with source := some (create_utf8_data_source content) } }
  else .ok e

/-- Process a list sequentially, stopping at the first error (the Python
`for` loops over `storage.files`, `dropins` and `systemd.units` mutate the
current element and let exceptions propagate). -/
def mapExcept (f : α → Except Err β) : List α → Except Err (List β)
  | [] => .ok []
  | a :: t =>
    match f a with
    | .error e => .error e
    | .ok b => (mapExcept f t).map (b :: ·)

/-- Method `IgnitionBuilder._add_files`: resolve every File Entry in order. -/
def add_files (render : List Nat → Except Err (List Nat)) (fs : FS)
    (files : List FileEntry) : Except Err (List FileEntry) :=
  mapExcept (set_file_source render fs) files

/-- Method `IgnitionBuilder._process_systemd_dropin`: when the dropin's `contents`
is empty, read the override asset (raw text, no embedding); indexing
`dropin["contents"]` raises `KeyError` when the key is absent. -/
def process_systemd_dropin (fs : FS) (unitName : List Nat) (d : Dropin) :
    Except Err Dropin :=
  match d.contents with
  | none => .error .keyError
  | some c =>
    if c = [] then
      match readFS fs (dropinAssetKey unitName d.name) with
      | none => .error .fileNotFound
      | some txt => .ok { d with contents := some txt }
    else .ok d

/-- One Unit Entry of `_add_systemd_overrides`: the walrus
`if dropins := unit.get("dropins")` only fires when `dropins` is present and
non-empty. -/
def process_unit_overrides (fs : FS) (u : SystemdUnit) : Except Err SystemdUnit :=
  if u.dropins.getD [] = [] then .ok u
  else (mapExcept (process_systemd_dropin fs u.name) (u.dropins.getD [])).map
    fun ds' => { u with dropins := some ds' }

/-- Method `IgnitionBuilder._add_systemd_overrides`: process every Unit Entry. -/
def add_systemd_overrides (fs : FS) (units : List SystemdUnit) :
    Except Err (List SystemdUnit) :=
  mapExcept (process_unit_overrides fs) units

/-- The fixed output path `OUTPUT_DIR.joinpath(TEMPLATE_PATH)`. -/
def outputPath : List Nat :=
  str "_build/ignition/config.ign"

/-- Method `IgnitionBuilder.build`: run the first pass, file materialization and
systemd override materialization in order, then write the document once.
`firstPass` is the result of `_first_pass` (template file read + jinja2
render + `json.loads`), already shaped as a Structural Document; `render`
resolves inline File Entry templates.  The second component lists the
file writes `_write` performs — the document serialized by
`json.dump(self._conf, f, indent=2)` is recorded as the document itself —
and is empty when an exception aborts the build first. -/
def build (render : List Nat → Except Err (List Nat))
    (firstPass : Except Err IgnitionConfig) (fs : FS) :
    Except Err IgnitionConfig × List (List Nat × IgnitionConfig) :=
  match firstPass with
  | .error e => (.error e, [])
  | .ok conf =>
    match add_files render fs conf.files with
    | .error e => (.error e, [])
    | .ok files' =>
      match add_systemd_overrides fs conf.units with
      | .error e => (.error e, [])
      | .ok units' =>
        (.ok ⟨files', units'⟩, [(outputPath, ⟨files', units'⟩)])

/-- Method `IgnitionConfigInspector._decode_file_content`: read
`file["contents"]["source"]` (`KeyError`, modelled `none`, when either key
is absent); when the source mentions `base64`, base64-decode whatever
follows the first `base64,` and UTF-8 decode it; otherwise fall back to the
text after the first comma, or the whole string when it has no comma. -/
def decode_file_content (e : FileEntry) : Option (List Nat) :=
  match e.contents with
  | none => none
  | some c =>
    match c.source with
    | none => none
    | some content =>
      if containsSubstr content (str "base64") then
        match b64decode (dropAfter (str "base64,") content) with
        | none => none
        | some bytes => utf8Decode bytes
      else some ((afterComma content).getD content)

/-- Octal digits of a number, least significant first. -/
def octalRev : Nat → List Nat
  | 0 => []
  | n + 1 => ((n + 1) % 8 + 48) :: octalRev ((n + 1) / 8)
decreasing_by exact Nat.div_lt_self (Nat.succ_pos n) (by omega)

/-- Python `f"{m:o}"`: the octal representation of a number. -/
def natToOctal (n : Nat) : List Nat :=
  if n = 0 then [48] else (octalRev n).reverse

/-- The permission-mode field of `_print_file`:
`f"{int(mode):o}" if (mode := file.get("mode")) else "?"`.
The walrus condition is Python truthiness, so both an absent mode and a mode
equal to 0 take the `"?"` branch. -/
def octalModeField (mode : Option Nat) : List Nat :=
  match mode with
  | none => str "?"
  | some m => if m = 0 then str "?" else natToOctal m

/-- The title line `f"{path} (mode: {octal_mode})"` printed for a file. -/
def printFileTitle (e : FileEntry) : List Nat :=
  e.path ++ str " (mode: " ++ octalModeField e.mode ++ str ")"

/-- Method `IgnitionConfigInspector.print_files_by_path`: print (here: select), in
document order, the File Entries whose `path` is one of the given paths. -/
def print_files_by_path (paths : List (List Nat)) : List FileEntry → List FileEntry
  | [] => []
  | f :: t =>
    if f.path ∈ paths then f :: print_files_by_path paths t
    else print_files_by_path paths t

/-- Python `s.lstrip("files")`: remove every leading character that belongs
to the character set `{f, i, l, e, s}` (not a prefix-segment strip). -/
def lstripFilesChars (s : List Nat) : List Nat :=
  s.dropWhile (fun c => c ∈ str "files")

/-- The `files` command of the inspector CLI with path arguments:
`config.print_files_by_path(str(file).lstrip("files") for file in files)`
(argument strings taken verbatim; `pathlib.Path` round-trips the
slash-normalized paths used here unchanged). -/
def filesCommand (args : List (List Nat)) (files : List FileEntry) : List FileEntry :=
  print_files_by_path (args.map lstripFilesChars) files

/-- Modelled from the spec: the `files` command as the spec's words describe
it — "path matching strips a literal `files` prefix segment from
user-supplied paths before comparison".  For comparison with
`filesCommand`. -/
def filesCommandSpec (args : List (List Nat)) (files : List FileEntry) : List FileEntry :=
  print_files_by_path
    (args.map fun a => if (str "files").isPrefixOf a then a.drop 5 else a) files

/-- Modelled from the spec: `looksLikeTemplate` as the spec's words describe
it — the text "contains a substitution directive (`{{ ... }}`) or a control
directive (`{% ... %}`)", i.e. an opening delimiter, some non-empty content,
and a closing delimiter, with no constraint on the content.  For comparison
with `is_jinja`. -/
def specLooksLikeTemplate (s : List Nat) : Prop :=
  (∃ a b c, s = a ++ [123, 123] ++ b ++ [125, 125] ++ c ∧ b ≠ []) ∨
  (∃ a b c, s = a ++ [123, 37] ++ b ++ [37, 125] ++ c ∧ b ≠ [])

/-- The pattern `o1 o2 .+ c1 c2` matches inside `s`, stated by
decomposition: an opening pair, at least one intervening character none of
which is a newline, then a closing pair. -/
def regexDirectiveProp (o1 o2 c1 c2 : Nat) (s : List Nat) : Prop :=
  ∃ a b c, s = a ++ [o1, o2] ++ b ++ [c1, c2] ++ c ∧ b ≠ [] ∧ ∀ x ∈ b, x ≠ 10

/-- The text one template node contributes under jinja2's default rendering:
literal text verbatim, a variable reference by lookup with the empty string
for an absent name. -/
def renderedNode (vars : List (List Nat × List Nat)) : JinjaNode → List Nat
  | .lit t => t
  | .var n => (lookupVar vars n).getD []

/-- Some File Entry or dropin of the first-pass document needs its backing
asset, and that asset is missing from the filesystem. -/
def missingAsset (firstPass : Except Err IgnitionConfig) (fs : FS) : Prop :=
  ∃ conf, firstPass = .ok conf ∧
    ((∃ f ∈ conf.files,
        ((f.contents.getD ⟨none⟩).source).getD [] = [] ∧
        readFS fs (assetKey f.path) = none) ∨
     (∃ u ∈ conf.units, ∃ ds, u.dropins = some ds ∧
        ∃ d ∈ ds, d.contents = some [] ∧
        readFS fs (dropinAssetKey u.name d.name) = none))

/-! ## Helper lemmas -/

/-- When the pattern does not occur in `s`, `dropAfter` returns `[]` (Python
`partition` puts the whole string in the first component). -/
theorem dropAfter_eq_nil_of_not_contains (pat s : List Nat)
    (h : containsSubstr s pat = false) : dropAfter pat s = [] := by
  induction s with
  | nil => rfl
  | cons c t ih =>
    rw [containsSubstr] at h
    rw [Bool.or_eq_false_iff] at h
    rw [dropAfter, if_neg (by simp [h.1])]
    exact ih h.2

/-- Rendering `natToOctal` never collides with the `"?"` placeholder. -/
theorem natToOctal_ne_placeholder (m : Nat) : natToOctal m ≠ str "?" := by
  have digits : ∀ n, ∀ x ∈ octalRev n, x < 56 := by
    intro n
    induction n using Nat.strong_induction_on with
    | _ n ih =>
      match n with
      | 0 => simp [octalRev]
      | Nat.succ m =>
        rw [octalRev]
        intro x hx
        rcases List.mem_cons.mp hx with h | h
        · subst h; omega
        · exact ih ((m + 1) / 8) (Nat.div_lt_self (Nat.succ_pos m) (by omega)) x h
  intro h
  rw [natToOctal] at h
  by_cases hm : m = 0
  · rw [if_pos hm] at h
    exact absurd h (by decide)
  · rw [if_neg hm] at h
    have : 63 ∈ (octalRev m).reverse := by rw [h]; decide
    have := digits m 63 (List.mem_reverse.mp this)
    omega

/-- Selection `print_files_by_path` selects exactly the entries whose path is one of
the given paths, in document order. -/
theorem print_files_by_path_eq_filter (paths : List (List Nat)) (l : List FileEntry) :
    print_files_by_path paths l = l.filter (fun f => decide (f.path ∈ paths)) := by
  induction l with
  | nil => rfl
  | cons f t ih =>
    by_cases h : f.path ∈ paths
    · rw [print_files_by_path, if_pos h, List.filter_cons, if_pos (by simpa using h), ih]
    · rw [print_files_by_path, if_neg h, List.filter_cons, if_neg (by simpa using h), ih]

/-- A successful `mapExcept` preserves list length. -/
theorem mapExcept_ok_length {f : α → Except Err β} {l : List α} {l' : List β}
    (h : mapExcept f l = .ok l') : l'.length = l.length := by
  induction l generalizing l' with
  | nil => rw [mapExcept] at h; cases h; rfl
  | cons a t ih =>
    rw [mapExcept] at h
    cases hf : f a with
    | error e => rw [hf] at h; cases h
    | ok b =>
      rw [hf] at h
      cases ht : mapExcept f t with
      | error e => rw [ht] at h; cases h
      | ok t' =>
        rw [ht] at h
        cases h
        simp [ih ht]

/-- A successful `mapExcept` maps each element to the result at the same
position. -/
theorem mapExcept_ok_get {f : α → Except Err β} {l : List α} {l' : List β}
    (h : mapExcept f l = .ok l') (i : Nat) (hi : i < l.length) (hi' : i < l'.length) :
    f (l.get ⟨i, hi⟩) = .ok (l'.get ⟨i, hi'⟩) := by
  induction l generalizing l' i with
  | nil => exact absurd hi (by simp)
  | cons a t ih =>
    rw [mapExcept] at h
    cases hf : f a with
    | error e => rw [hf] at h; cases h
    | ok b =>
      rw [hf] at h
      cases ht : mapExcept f t with
      | error e => rw [ht] at h; cases h
      | ok t' =>
        rw [ht] at h
        cases h
        match i with
        | 0 => exact hf
        | Nat.succ k => exact ih ht k (by simpa using hi) (by simpa using hi')

/-- When some element fails, the whole `mapExcept` fails. -/
theorem mapExcept_error_of_mem {f : α → Except Err β} {l : List α} {a : α} {e : Err}
    (hmem : a ∈ l) (hf : f a = .error e) : ∃ e', mapExcept f l = .error e' := by
  induction l with
  | nil => cases hmem
  | cons hd t ih =>
    rw [mapExcept]
    cases hhd : f hd with
    | error e' => exact ⟨e', rfl⟩
    | ok b =>
      rcases List.mem_cons.mp hmem with rfl | hmem'
      · rw [hhd] at hf; cases hf
      · rcases ih hmem' with ⟨e', ht⟩
        rw [ht]
        exact ⟨e', rfl⟩

/-! ## Claim C2 -/

/-- C2, counterexample: a template consisting of a single reference to the
variable `missing`, rendered against the empty mapping, succeeds and yields
the empty string — rendering does not fail with an undefined-variable
error, and the absent key is silently substituted with the empty string. -/
theorem c2_render_counterexample :
    referencesVar [JinjaNode.var (str "missing")] (str "missing") ∧
    lookupVar [] (str "missing") = none ∧
    jinjaRenderDefault [] [JinjaNode.var (str "missing")] = Except.ok [] := by
  refine ⟨List.mem_singleton.mpr rfl, rfl, rfl⟩

/-- C2, amended: rendering with the builder's template configuration
(jinja2's default `Undefined`) never fails; every node contributes its
rendered text, a reference to a key absent from the mapping contributing
the empty string. -/
theorem c2_render_default_substitutes_empty
    (vars : List (List Nat × List Nat)) (nodes : List JinjaNode) :
    jinjaRenderDefault vars nodes = Except.ok (nodes.flatMap (renderedNode vars)) := by
  induction nodes with
  | nil => rfl
  | cons n t ih =>
    cases n with
    | lit s => rw [jinjaRenderDefault, ih]; rfl
    | var nm => rw [jinjaRenderDefault, ih]; rfl

/-! ## Claim C6 -/

/-- C6: a File Entry whose `contents.source` is present, non-empty and free
of template directive syntax (state 3) is left completely unchanged by
`_set_file_source`. -/
theorem c6_state3_pass_through (render : List Nat → Except Err (List Nat)) (fs : FS)
    (e : FileEntry) (co : FileContents) (s : List Nat)
    (hco : e.contents = some co) (hs : co.source = some s) (hne : s ≠ [])
    (hj : is_jinja s = false) :
    set_file_source render fs e = .ok e := by
  rw [set_file_source]
  simp only [hco, hs, Option.getD_some]
  rw [if_neg hne, hj]
  simp

/-- C6 witness: the spec's own example string is passed through. -/
theorem c6_state3_pass_through_witness :
    set_file_source (fun s => .ok s) []
      ⟨str "/etc/ref", none, some ⟨some (str "plain-reference,no-template-here")⟩⟩ =
      .ok ⟨str "/etc/ref", none, some ⟨some (str "plain-reference,no-template-here")⟩⟩ :=
  c6_state3_pass_through (fun s => .ok s) []
    ⟨str "/etc/ref", none, some ⟨some (str "plain-reference,no-template-here")⟩⟩
    ⟨some (str "plain-reference,no-template-here")⟩
    (str "plain-reference,no-template-here") rfl rfl (by decide) (by decide)

/-! ## Claim C8 -/

/-- C8, counterexample: the supplied path `"e/etc/x"` contains no `files`
prefix segment, so under the claim's description it matches nothing; the
code's `lstrip("files")` strips the leading `e` as a member of the character
set `{f,i,l,e,s}` and the `/etc/x` entry is printed. -/
theorem c8_files_filter_counterexample :
    filesCommand [str "e/etc/x"]
        [⟨str "/etc/x", none, none⟩, ⟨str "/etc/y", none, none⟩] =
      [⟨str "/etc/x", none, none⟩] ∧
    filesCommandSpec [str "e/etc/x"]
        [⟨str "/etc/x", none, none⟩, ⟨str "/etc/y", none, none⟩] = [] := by
  constructor <;> rfl

/-- C8, amended: the `files` command prints exactly the entries whose path
equals one of the supplied paths after all leading characters drawn from the
set `{f,i,l,e,s}` are stripped (Python `lstrip("files")`, a character-set
strip, not a prefix-segment strip); in particular filtering a document with
entries `/etc/x` and `/etc/y` by `/etc/x` prints exactly the `/etc/x`
entry. -/
theorem c8_files_filter_amended :
    (∀ args files, filesCommand args files =
      files.filter fun f => decide (f.path ∈ args.map lstripFilesChars)) ∧
    (∀ eX eY : FileEntry, eX.path = str "/etc/x" → eY.path = str "/etc/y" →
      filesCommand [str "/etc/x"] [eX, eY] = [eX]) := by
  constructor
  · intro args files
    rw [filesCommand, print_files_by_path_eq_filter]
  · intro eX eY hX hY
    rw [filesCommand]
    have h1 : [str "/etc/x"].map lstripFilesChars = [str "/etc/x"] := by rfl
    rw [h1, print_files_by_path, if_pos (by rw [hX]; exact List.mem_singleton.mpr rfl),
      print_files_by_path, if_neg (by rw [hY]; decide), print_files_by_path]

/-- C8 witness: the amended theorem at the spec's concrete document. -/
theorem c8_files_filter_amended_witness :
    filesCommand [str "/etc/x"]
        [⟨str "/etc/x", none, none⟩, ⟨str "/etc/y", none, some ⟨some (str "s")⟩⟩] =
      [⟨str "/etc/x", none, none⟩] :=
  c8_files_filter_amended.2 ⟨str "/etc/x", none, none⟩
    ⟨str "/etc/y", none, some ⟨some (str "s")⟩⟩ rfl rfl

/-! ## Claim C9 -/

/-- C9, counterexample: a File Entry whose mode is present and equal to `0`
is rendered with the `"?"` placeholder, not with its octal representation
`"0"` — the walrus `if (mode := file.get("mode"))` tests Python truthiness,
and `0` is falsy. -/
theorem c9_mode_field_counterexample :
    octalModeField (some 0) = str "?" ∧
    natToOctal 0 = str "0" ∧
    str "?" ≠ str "0" ∧
    (some 0 ≠ (none : Option Nat)) := by
  refine ⟨rfl, rfl, by decide, by decide⟩

/-- C9, amended: the permission-mode field is the octal representation of
the mode whenever a mode is present and non-zero, and is the `"?"`
placeholder exactly when the mode is absent or zero. -/
theorem c9_mode_field_amended (mo : Option Nat) :
    (∀ m, mo = some m → m ≠ 0 → octalModeField mo = natToOctal m) ∧
    (octalModeField mo = str "?" ↔ (mo = none ∨ mo = some 0)) := by
  constructor
  · intro m hm hne
    subst hm
    rw [octalModeField, if_neg hne]
  · cases mo with
    | none => simp [octalModeField]
    | some m =>
      by_cases hm : m = 0
      · subst hm; simp [octalModeField]
      · rw [octalModeField, if_neg hm]
        simp only [Option.some.injEq]
        constructor
        · intro h; exact absurd h (natToOctal_ne_placeholder m)
        · rintro (h | h) <;> simp_all

/-- C9 witness: the amended theorem at a present non-zero mode and at an
absent mode. -/
theorem c9_mode_field_amended_witness :
    octalModeField (some 420) = natToOctal 420 ∧
    (octalModeField none = str "?" ↔ ((none : Option Nat) = none ∨ (none : Option Nat) = some 0)) :=
  ⟨(c9_mode_field_amended (some 420)).1 420 rfl (by decide),
   (c9_mode_field_amended none).2⟩

/-! ## Claim C10 -/

/-- C10: a `contents.source` that mentions `base64` without containing
`base64,` takes the base64 branch of `_decode_file_content` with an empty
remainder after `partition`, and decodes to the empty string; the
comma-delimited fallback is not reached. -/
theorem c10_base64_no_comma (p : List Nat) (mo : Option Nat) (s : List Nat)
    (h1 : containsSubstr s (str "base64") = true)
    (h2 : containsSubstr s (str "base64,") = false) :
    decode_file_content ⟨p, mo, some ⟨some s⟩⟩ = some [] := by
  rw [decode_file_content]
  simp only [h1, if_true]
  rw [dropAfter_eq_nil_of_not_contains _ _ h2]
  rfl

/-- C10 witness: a plain URL that merely mentions base64 decodes to the
empty string. -/
theorem c10_base64_no_comma_witness :
    decode_file_content ⟨str "/etc/x", none, some ⟨some (str "https://host/base64-docs")⟩⟩ =
      some [] :=
  c10_base64_no_comma (str "/etc/x") none (str "https://host/base64-docs")
    (by decide) (by decide)

/-! ## Claim C5 -/

/-- C5: when systemd override materialization succeeds, every dropin that
had empty `contents` inside a unit's (necessarily non-empty) `dropins` list
ends up with `contents` equal to the raw text of the override asset at
`systemd/<unit-base-name>.d/<dropin-name>` — the text itself, with no
base64/data-URI embedding applied, and the dropin's name unchanged. -/
theorem c5_dropin_raw_text (fs : FS) (units units' : List SystemdUnit)
    (i j : Nat) (ds : List Dropin) (C : List Nat)
    (hi : i < units.length)
    (hds : (units.get ⟨i, hi⟩).dropins = some ds)
    (hj : j < ds.length)
    (hc : (ds.get ⟨j, hj⟩).contents = some [])
    (hread : readFS fs (dropinAssetKey (units.get ⟨i, hi⟩).name (ds.get ⟨j, hj⟩).name) = some C)
    (hok : add_systemd_overrides fs units = .ok units') :
    ∃ (hi' : i < units'.length) (ds' : List Dropin) (hj' : j < ds'.length),
      (units'.get ⟨i, hi'⟩).dropins = some ds' ∧
      ds'.get ⟨j, hj'⟩ = { name := (ds.get ⟨j, hj⟩).name, contents := some C } := by
  have hlen : units'.length = units.length := mapExcept_ok_length hok
  have hi' : i < units'.length := by omega
  have hu : process_unit_overrides fs (units.get ⟨i, hi⟩) = .ok (units'.get ⟨i, hi'⟩) :=
    mapExcept_ok_get hok i hi hi'
  have hne : ds ≠ [] := by intro h; subst h; exact absurd hj (by simp)
  rw [process_unit_overrides, hds] at hu
  rw [Option.getD_some, if_neg hne] at hu
  cases hmap : mapExcept (process_systemd_dropin fs (units.get ⟨i, hi⟩).name) ds with
  | error e => rw [hmap] at hu; cases hu
  | ok ds' =>
    rw [hmap] at hu
    have hdslen : ds'.length = ds.length := mapExcept_ok_length hmap
    have hj' : j < ds'.length := by omega
    have hd : process_systemd_dropin fs (units.get ⟨i, hi⟩).name (ds.get ⟨j, hj⟩) =
        .ok (ds'.get ⟨j, hj'⟩) := mapExcept_ok_get hmap j hj hj'
    rw [process_systemd_dropin, hc, hread] at hd
    refine ⟨hi', ds', hj', ?_, ?_⟩
    · have h : Except.ok { units.get ⟨i, hi⟩ with dropins := some ds' } =
          Except.ok (units'.get ⟨i, hi'⟩) := hu
      injection h with h
      rw [← h]
    · have h : (Except.ok { name := (ds.get ⟨j, hj⟩).name, contents := some C } :
          Except Err Dropin) = Except.ok (ds'.get ⟨j, hj'⟩) := hd
      injection h with h
      rw [← h]

/-- C5 witness: the spec's example — unit `foo.service` with dropin
`override.conf` of empty contents, and an override asset
`systemd/foo.d/override.conf` containing `"X=1\n"` — ends with the raw text
`"X=1\n"` in the dropin. -/
theorem c5_dropin_raw_text_witness :
    ∃ (hi' : 0 < ([⟨str "foo.service", some [⟨str "override.conf", some (str "X=1\n")⟩]⟩] :
        List SystemdUnit).length)
      (ds' : List Dropin) (hj' : 0 < ds'.length),
      (([⟨str "foo.service", some [⟨str "override.conf", some (str "X=1\n")⟩]⟩] :
          List SystemdUnit).get ⟨0, hi'⟩).dropins = some ds' ∧
      ds'.get ⟨0, hj'⟩ = { name := str "override.conf", contents := some (str "X=1\n") } :=
  c5_dropin_raw_text
    [(str "systemd/foo.d/override.conf", str "X=1\n")]
    [⟨str "foo.service", some [⟨str "override.conf", some []⟩]⟩]
    [⟨str "foo.service", some [⟨str "override.conf", some (str "X=1\n")⟩]⟩]
    0 0 [⟨str "override.conf", some []⟩] (str "X=1\n")
    (by decide) rfl (by decide) rfl rfl rfl

/-! ## Claim C3 -/

/-- C3, counterexample: the first-pass document has a File Entry `/a` with
no `contents` object (its asset exists) followed by a File Entry `/b` whose
`contents.source` is empty and whose backing asset `files/b` is missing.
The claim's hypothesis holds — a backing asset is missing — but the build
aborts with the `KeyError` raised while writing back `/a`'s embedded
source, not with an asset-not-found error. -/
theorem c3_counterexample :
    missingAsset
      (.ok ⟨[⟨str "/a", none, none⟩, ⟨str "/b", none, some ⟨none⟩⟩], []⟩)
      [(str "files/a", str "x")] ∧
    (build (fun s => .ok s)
      (.ok ⟨[⟨str "/a", none, none⟩, ⟨str "/b", none, some ⟨none⟩⟩], []⟩)
      [(str "files/a", str "x")]).1 = .error Err.keyError ∧
    Err.keyError ≠ Err.fileNotFound := by
  refine ⟨⟨_, rfl, Or.inl ⟨⟨str "/b", none, some ⟨none⟩⟩, by decide, rfl, rfl⟩⟩, rfl, by decide⟩

/-- Method `_set_file_source` fails with `FileNotFoundError` when the entry's
source is empty and its backing asset is missing. -/
theorem set_file_source_missing_asset (render : List Nat → Except Err (List Nat))
    (fs : FS) (f : FileEntry)
    (hsrc : ((f.contents.getD ⟨none⟩).source).getD [] = [])
    (hmiss : readFS fs (assetKey f.path) = none) :
    set_file_source render fs f = .error .fileNotFound := by
  simp [set_file_source, hsrc, hmiss]

/-- Computation rule: a failed first pass aborts the build with no write. -/
theorem build_error_def (render : List Nat → Except Err (List Nat)) (e : Err) (fs : FS) :
    build render (.error e) fs = (.error e, []) := rfl

/-- Computation rule for `build` on a successful first pass. -/
theorem build_ok_def (render : List Nat → Except Err (List Nat))
    (conf : IgnitionConfig) (fs : FS) :
    build render (.ok conf) fs =
      match add_files render fs conf.files with
      | .error e => (.error e, [])
      | .ok files' =>
        match add_systemd_overrides fs conf.units with
        | .error e => (.error e, [])
        | .ok units' => (.ok ⟨files', units'⟩, [(outputPath, ⟨files', units'⟩)]) := rfl

/-- Each build either succeeds with exactly the one final write, or fails
with no write. -/
theorem build_cases (render : List Nat → Except Err (List Nat))
    (fp : Except Err IgnitionConfig) (fs : FS) :
    (∃ c, (build render fp fs).1 = .ok c ∧ (build render fp fs).2 = [(outputPath, c)]) ∨
    ((∃ e, (build render fp fs).1 = .error e) ∧ (build render fp fs).2 = []) := by
  cases fp with
  | error e => exact Or.inr ⟨⟨e, rfl⟩, rfl⟩
  | ok conf =>
    cases hfiles : add_files render fs conf.files with
    | error e =>
      exact Or.inr ⟨⟨e, by rw [build_ok_def, hfiles]⟩, by rw [build_ok_def, hfiles]⟩
    | ok files' =>
      cases hunits : add_systemd_overrides fs conf.units with
      | error e =>
        exact Or.inr ⟨⟨e, by rw [build_ok_def, hfiles, hunits]⟩,
          by rw [build_ok_def, hfiles, hunits]⟩
      | ok units' =>
        exact Or.inl ⟨⟨files', units'⟩, by rw [build_ok_def, hfiles, hunits],
          by rw [build_ok_def, hfiles, hunits]⟩

/-- C3, amended: the on-disk artifact is written at most once, only with the
fully materialized document of a successful build; and whenever a File
Entry's or dropin's backing asset is missing, the build fails — with an
asset-not-found error unless an earlier entry fails first for another
reason, such as the `KeyError` raised for an entry with no `contents`
object — and nothing is written. -/
theorem c3_all_or_nothing (render : List Nat → Except Err (List Nat))
    (fp : Except Err IgnitionConfig) (fs : FS) :
    ((build render fp fs).2.length ≤ 1) ∧
    (∀ c, (build render fp fs).1 = .ok c → (build render fp fs).2 = [(outputPath, c)]) ∧
    ((build render fp fs).2 ≠ [] → ∃ c, (build render fp fs).1 = .ok c) ∧
    (missingAsset fp fs →
      (∃ e, (build render fp fs).1 = .error e) ∧ (build render fp fs).2 = []) := by
  have hmain : missingAsset fp fs →
      (∃ e, (build render fp fs).1 = .error e) ∧ (build render fp fs).2 = [] := by
    rintro ⟨conf, rfl, hcase⟩
    cases hfiles : add_files render fs conf.files with
    | error e =>
      exact ⟨⟨e, by rw [build_ok_def, hfiles]⟩, by rw [build_ok_def, hfiles]⟩
    | ok files' =>
      rcases hcase with ⟨f, hmem, hsrc, hmiss⟩ | ⟨u, hmem, ds, hds, d, hdmem, hc, hmiss⟩
      · rcases mapExcept_error_of_mem hmem
          (set_file_source_missing_asset render fs f hsrc hmiss) with ⟨e', he⟩
        have : Except.error e' = Except.ok files' := by
          rw [← he, ← hfiles]; rfl
        cases this
      · have hd : process_systemd_dropin fs u.name d = .error .fileNotFound := by
          rw [process_systemd_dropin, hc, hmiss]
          rfl
        have hu : ∃ e', process_unit_overrides fs u = .error e' := by
          rcases mapExcept_error_of_mem hdmem hd with ⟨e', hds'⟩
          refine ⟨e', ?_⟩
          rw [process_unit_overrides, hds]
          rw [Option.getD_some, if_neg (by rintro rfl; cases hdmem), hds']
          rfl
        rcases hu with ⟨e', hu⟩
        rcases mapExcept_error_of_mem hmem hu with ⟨e'', hunits⟩
        have hover : add_systemd_overrides fs conf.units = .error e'' := hunits
        exact ⟨⟨e'', by rw [build_ok_def, hfiles, hover]⟩,
          by rw [build_ok_def, hfiles, hover]⟩
  refine ⟨?_, ?_, ?_, hmain⟩
  · rcases build_cases render fp fs with ⟨c, _, h2⟩ | ⟨_, h2⟩ <;> rw [h2] <;> simp
  · intro c hok
    rcases build_cases render fp fs with ⟨c', h1, h2⟩ | ⟨⟨e, h1⟩, _⟩
    · rw [h1] at hok; cases hok; exact h2
    · rw [h1] at hok; cases hok
  · intro hne
    rcases build_cases render fp fs with ⟨c, h1, _⟩ | ⟨_, h2⟩
    · exact ⟨c, h1⟩
    · exact absurd h2 hne

/-- C3 witness: a document with a single externally sourced File Entry and
an empty filesystem has a missing asset; the build errors and writes
nothing. -/
theorem c3_all_or_nothing_witness :
    ((build (fun s => .ok s) (.ok ⟨[⟨str "/b", none, some ⟨none⟩⟩], []⟩)
        ([] : FS)).2.length ≤ 1) ∧
    (∃ e, (build (fun s => .ok s) (.ok ⟨[⟨str "/b", none, some ⟨none⟩⟩], []⟩)
        ([] : FS)).1 = .error e) ∧
    (build (fun s => .ok s) (.ok ⟨[⟨str "/b", none, some ⟨none⟩⟩], []⟩)
        ([] : FS)).2 = [] :=
  ⟨(c3_all_or_nothing (fun s => .ok s)
      (.ok ⟨[⟨str "/b", none, some ⟨none⟩⟩], []⟩) ([] : FS)).1,
   ((c3_all_or_nothing (fun s => .ok s)
      (.ok ⟨[⟨str "/b", none, some ⟨none⟩⟩], []⟩) ([] : FS)).2.2.2
      ⟨⟨[⟨str "/b", none, some ⟨none⟩⟩], []⟩, rfl,
        Or.inl ⟨⟨str "/b", none, some ⟨none⟩⟩, by decide, rfl, rfl⟩⟩).1,
   ((c3_all_or_nothing (fun s => .ok s)
      (.ok ⟨[⟨str "/b", none, some ⟨none⟩⟩], []⟩) ([] : FS)).2.2.2
      ⟨⟨[⟨str "/b", none, some ⟨none⟩⟩], []⟩, rfl,
        Or.inl ⟨⟨str "/b", none, some ⟨none⟩⟩, by decide, rfl, rfl⟩⟩).2⟩

/-! ## UTF-8 and base64 round trips -/

/-- Decoding a list headed by an ASCII byte. -/
theorem utf8Decode_one (b : Nat) (h : b < 0x80) (t : List Nat) :
    utf8Decode (b :: t) = (utf8Decode t).map (b :: ·) := by
  match t with
  | [] => conv_lhs => rw [utf8Decode, if_pos h]
  | [x] => conv_lhs => rw [utf8Decode, if_pos h]
  | [x, y] => conv_lhs => rw [utf8Decode, if_pos h]
  | x :: y :: z :: t' => conv_lhs => rw [utf8Decode, if_pos h]

/-- Decoding a list headed by a well-formed two-byte sequence. -/
theorem utf8Decode_two (b b2 : Nat) (hb : 0xC2 ≤ b) (hb' : b < 0xE0)
    (hc : utf8Cont b2) (t : List Nat) :
    utf8Decode (b :: b2 :: t) = (utf8Decode t).map (utf8Val2 b b2 :: ·) := by
  match t with
  | [] =>
    conv_lhs => rw [utf8Decode, if_neg (by omega : ¬b < 0x80), if_neg (by omega : ¬b < 0xC2),
      if_pos hb', if_pos hc]
  | [x] =>
    conv_lhs => rw [utf8Decode, if_neg (by omega : ¬b < 0x80), if_neg (by omega : ¬b < 0xC2),
      if_pos hb', if_pos hc]
  | x :: y :: t' =>
    conv_lhs => rw [utf8Decode, if_neg (by omega : ¬b < 0x80), if_neg (by omega : ¬b < 0xC2),
      if_pos hb', if_pos hc]

/-- Decoding a list headed by a well-formed three-byte sequence. -/
theorem utf8Decode_three (b b2 b3 : Nat) (hb : 0xE0 ≤ b) (hb' : b < 0xF0)
    (hc2 : utf8Cont b2) (hc3 : utf8Cont b3) (hgood : ¬utf8Bad3 (utf8Val3 b b2 b3))
    (t : List Nat) :
    utf8Decode (b :: b2 :: b3 :: t) = (utf8Decode t).map (utf8Val3 b b2 b3 :: ·) := by
  match t with
  | [] =>
    conv_lhs => rw [utf8Decode, if_neg (by omega : ¬b < 0x80), if_neg (by omega : ¬b < 0xC2),
      if_neg (by omega : ¬b < 0xE0), if_pos hb', if_pos ⟨hc2, hc3⟩, if_neg hgood]
  | x :: t' =>
    conv_lhs => rw [utf8Decode, if_neg (by omega : ¬b < 0x80), if_neg (by omega : ¬b < 0xC2),
      if_neg (by omega : ¬b < 0xE0), if_pos hb', if_pos ⟨hc2, hc3⟩, if_neg hgood]

/-- Decoding a list headed by a well-formed four-byte sequence. -/
theorem utf8Decode_four (b b2 b3 b4 : Nat) (hb : 0xF0 ≤ b) (hb' : b < 0xF5)
    (hc2 : utf8Cont b2) (hc3 : utf8Cont b3) (hc4 : utf8Cont b4)
    (hgood : ¬utf8Bad4 (utf8Val4 b b2 b3 b4)) (t : List Nat) :
    utf8Decode (b :: b2 :: b3 :: b4 :: t) =
      (utf8Decode t).map (utf8Val4 b b2 b3 b4 :: ·) := by
  conv_lhs => rw [utf8Decode, if_neg (by omega : ¬b < 0x80), if_neg (by omega : ¬b < 0xC2),
    if_neg (by omega : ¬b < 0xE0), if_neg (by omega : ¬b < 0xF0), if_pos hb',
    if_pos ⟨hc2, hc3, hc4⟩, if_neg hgood]

/-- Decoding consumes the UTF-8 encoding of one valid scalar and returns
that scalar. -/
theorem utf8Decode_encodeChar (n : Nat) (hn : ValidScalar n) (r : List Nat) :
    utf8Decode (utf8EncodeChar n ++ r) = (utf8Decode r).map (n :: ·) := by
  have hthree : 0x800 ≤ n → n < 0x10000 → ¬(0xD800 ≤ n ∧ n < 0xE000) →
      utf8Decode (utf8EncodeChar n ++ r) = (utf8Decode r).map (n :: ·) := by
    intro h2 h3 h4
    rw [utf8EncodeChar, if_neg (by omega), if_neg (by omega), if_pos h3]
    show utf8Decode ((0xE0 + n / 4096) :: (0x80 + n / 64 % 64) :: (0x80 + n % 64) :: r) = _
    rw [utf8Decode_three _ _ _ (by omega) (by omega)
      (by unfold utf8Cont; omega) (by unfold utf8Cont; omega)
      (by unfold utf8Bad3 utf8Val3; omega)]
    have hv : utf8Val3 (0xE0 + n / 4096) (0x80 + n / 64 % 64) (0x80 + n % 64) = n := by
      unfold utf8Val3; omega
    rw [hv]
  rcases hn with hn | hn
  · by_cases h1 : n < 0x80
    · rw [utf8EncodeChar, if_pos h1, List.cons_append, List.nil_append,
        utf8Decode_one _ h1]
    · by_cases h2 : n < 0x800
      · rw [utf8EncodeChar, if_neg h1, if_pos h2]
        show utf8Decode ((0xC0 + n / 64) :: (0x80 + n % 64) :: r) = _
        rw [utf8Decode_two _ _ (by omega) (by omega) (by unfold utf8Cont; omega)]
        have hv : utf8Val2 (0xC0 + n / 64) (0x80 + n % 64) = n := by
          unfold utf8Val2; omega
        rw [hv]
      · exact hthree (by omega) (by omega) (by omega)
  · by_cases h3 : n < 0x10000
    · exact hthree (by omega) h3 (by omega)
    · -- four-byte case: 0x10000 ≤ n < 0x110000
      rw [utf8EncodeChar, if_neg (by omega), if_neg (by omega), if_neg h3]
      show utf8Decode ((0xF0 + n / 262144) :: (0x80 + n / 4096 % 64) ::
        (0x80 + n / 64 % 64) :: (0x80 + n % 64) :: r) = _
      rw [utf8Decode_four _ _ _ _ (by omega) (by omega)
        (by unfold utf8Cont; omega) (by unfold utf8Cont; omega) (by unfold utf8Cont; omega)
        (by unfold utf8Bad4 utf8Val4; omega)]
      have hv : utf8Val4 (0xF0 + n / 262144) (0x80 + n / 4096 % 64)
          (0x80 + n / 64 % 64) (0x80 + n % 64) = n := by
        unfold utf8Val4; omega
      rw [hv]

/-- UTF-8 round trip: decoding the encoding of any valid text recovers it. -/
theorem utf8_roundtrip (t : List Nat) (h : ValidText t) :
    utf8Decode (utf8Encode t) = some t := by
  induction t with
  | nil => rfl
  | cons c tl ih =>
    rw [utf8Encode, List.flatMap_cons]
    rw [show tl.flatMap utf8EncodeChar = utf8Encode tl from rfl]
    rw [utf8Decode_encodeChar c (h c (List.mem_cons_self c tl)) (utf8Encode tl)]
    rw [ih fun x hx => h x (List.mem_cons_of_mem c hx)]
    rfl

/-- Every sextet maps to a distinct alphabet character and back. -/
theorem b64CharIndex_b64Char : ∀ s < 64, b64CharIndex (b64Char s) = some s := by decide

/-- No alphabet character is the padding character `=`. -/
theorem b64Char_ne_pad : ∀ s < 64, b64Char s ≠ 61 := by decide

/-- No alphabet character is a comma. -/
theorem b64Char_ne_comma : ∀ s < 64, b64Char s ≠ 44 := by decide

/-- Base64 round trip, by strong induction on the byte-string length. -/
theorem b64_roundtrip_aux (n : Nat) :
    ∀ bs : List Nat, bs.length ≤ n → (∀ b ∈ bs, b < 256) →
      b64decode (b64encode bs) = some bs := by
  induction n with
  | zero =>
    intro bs hlen _
    match bs with
    | [] => rfl
  | succ n ih =>
    intro bs hlen hb
    match bs with
    | [] => rfl
    | [a] =>
      have ha : a < 256 := hb a (by simp)
      rw [b64encode, b64decode]
      rw [b64CharIndex_b64Char _ (by omega), b64CharIndex_b64Char _ (by omega)]
      rw [Option.some_bind, Option.some_bind, if_pos ⟨rfl, rfl, rfl⟩]
      have : a / 4 * 4 + a % 4 * 16 / 16 = a := by omega
      rw [this]
    | [a, b] =>
      have ha : a < 256 := hb a (by simp)
      have hbb : b < 256 := hb b (by simp)
      rw [b64encode, b64decode]
      rw [b64CharIndex_b64Char _ (by omega), b64CharIndex_b64Char _ (by omega)]
      rw [Option.some_bind, Option.some_bind]
      rw [if_neg fun h => b64Char_ne_pad (b % 16 * 4) (by omega) h.1]
      rw [if_pos ⟨rfl, rfl⟩]
      rw [b64CharIndex_b64Char _ (by omega), Option.some_bind]
      have h1 : a / 4 * 4 + (a % 4 * 16 + b / 16) / 16 = a := by omega
      have h2 : (a % 4 * 16 + b / 16) % 16 * 16 + b % 16 * 4 / 4 = b := by omega
      rw [h1, h2]
    | a :: b :: c :: rest =>
      have ha : a < 256 := hb a (by simp)
      have hbb : b < 256 := hb b (by simp)
      have hc : c < 256 := hb c (by simp)
      rw [b64encode, b64decode]
      rw [b64CharIndex_b64Char _ (by omega), b64CharIndex_b64Char _ (by omega)]
      rw [Option.some_bind, Option.some_bind]
      rw [if_neg fun h => b64Char_ne_pad (c % 64) (by omega) h.2.1]
      rw [if_neg fun h => b64Char_ne_pad (c % 64) (by omega) h.1]
      rw [b64CharIndex_b64Char _ (by omega), Option.some_bind]
      rw [b64CharIndex_b64Char _ (by omega), Option.some_bind]
      rw [ih rest (by simp at hlen; omega) fun x hx => hb x (by simp [hx])]
      have h1 : a / 4 * 4 + (a % 4 * 16 + b / 16) / 16 = a := by omega
      have h2 : (a % 4 * 16 + b / 16) % 16 * 16 + (b % 16 * 4 + c / 64) / 4 = b := by omega
      have h3 : (b % 16 * 4 + c / 64) % 4 * 64 + c % 64 = c := by omega
      rw [h1, h2, h3]
      rfl

/-- Base64 round trip: decoding the encoding of any byte string recovers
it. -/
theorem b64_roundtrip (bs : List Nat) (hb : ∀ b ∈ bs, b < 256) :
    b64decode (b64encode bs) = some bs :=
  b64_roundtrip_aux bs.length bs le_rfl hb

/-- Every byte of a UTF-8 encoding of valid text is below 256. -/
theorem utf8Encode_bytes_lt (t : List Nat) (h : ValidText t) :
    ∀ b ∈ utf8Encode t, b < 256 := by
  induction t with
  | nil => simp [utf8Encode]
  | cons c tl ih =>
    intro b hbmem
    rw [utf8Encode, List.flatMap_cons] at hbmem
    rcases List.mem_append.mp hbmem with hmem | hmem
    · have hval : ValidScalar c := h c (List.mem_cons_self c tl)
      have hc : c < 0x110000 := by rcases hval with h' | h' <;> omega
      rw [utf8EncodeChar] at hmem
      split_ifs at hmem <;> simp at hmem <;> rcases hmem with rfl | rfl | rfl | rfl <;> omega
    · exact ih (fun x hx => h x (List.mem_cons_of_mem c hx)) b hmem

/-- The scalar values of the data-URI header string. -/
theorem header_explicit :
    str "data:text/plain;charset=utf-8;base64," =
      [100, 97, 116, 97, 58, 116, 101, 120, 116, 47, 112, 108, 97, 105, 110, 59, 99, 104,
       97, 114, 115, 101, 116, 61, 117, 116, 102, 45, 56, 59, 98, 97, 115, 101, 54, 52, 44] := by
  decide

/-- The scalar values of the `base64,` partition separator. -/
theorem b64sep_explicit : str "base64," = [98, 97, 115, 101, 54, 52, 44] := by decide

/-- The scalar values of the `base64` detection substring. -/
theorem b64sub_explicit : str "base64" = [98, 97, 115, 101, 54, 52] := by decide

/-- Python `partition("base64,")` splits the embedded representation exactly after
the header: the header contains one occurrence of `base64,`, at its very
end, and the scan up to there is independent of the payload. -/
theorem dropAfter_header (p : List Nat) :
    dropAfter (str "base64,") (str "data:text/plain;charset=utf-8;base64," ++ p) = p := by
  rw [header_explicit, b64sep_explicit]
  simp [dropAfter, List.isPrefixOf]

/-- The embedded representation contains the substring `base64` (inside its
header), whatever the payload. -/
theorem contains_header (p : List Nat) :
    containsSubstr (str "data:text/plain;charset=utf-8;base64," ++ p) (str "base64") = true := by
  rw [header_explicit, b64sub_explicit]
  simp [containsSubstr, List.isPrefixOf]

/-- Decoding the embedded representation of any valid text recovers the
text: the header announces `base64`, `partition("base64,")` isolates the
payload, and base64 plus UTF-8 decoding undo the embedding. -/
theorem decode_create_utf8 (p : List Nat) (mo : Option Nat) (T : List Nat) (h : ValidText T) :
    decode_file_content ⟨p, mo, some ⟨some (create_utf8_data_source T)⟩⟩ = some T := by
  rw [decode_file_content, create_utf8_data_source]
  simp only [contains_header, if_true]
  rw [dropAfter_header, b64_roundtrip _ (utf8Encode_bytes_lt T h)]
  exact utf8_roundtrip T h

/-! ## Claim C1 -/

/-- C1: for every UTF-8 text `T`, the inspector's `_decode_file_content`
applied to a File Entry whose `contents.source` is
`create_utf8_data_source T` returns exactly `T`. -/
theorem c1_embed_decode_roundtrip (p : List Nat) (mo : Option Nat) (T : List Nat)
    (h : ValidText T) :
    decode_file_content ⟨p, mo, some ⟨some (create_utf8_data_source T)⟩⟩ = some T :=
  decode_create_utf8 p mo T h

/-- C1 witness: the round trip at a concrete text with a non-ASCII scalar. -/
theorem c1_embed_decode_roundtrip_witness :
    decode_file_content
        ⟨str "/x", none, some ⟨some (create_utf8_data_source (str "hué\n"))⟩⟩ =
      some (str "hué\n") :=
  c1_embed_decode_roundtrip (str "/x") none (str "hué\n") (by decide)

/-! ## Claim C4 -/

/-- C4, counterexample: a File Entry with no `contents` object at all —
`contents.source` is absent — whose backing asset `files/etc/x` exists with
content `"hello\n"`: `_set_file_source` reads the asset but then raises
`KeyError` on the write-back `file["contents"]["source"] = ...`, so the
entry never receives the embedded source. -/
theorem c4_missing_contents_counterexample :
    readFS [(str "files/etc/x", str "hello\n")] (assetKey (str "/etc/x")) =
      some (str "hello\n") ∧
    set_file_source (fun s => .ok s) [(str "files/etc/x", str "hello\n")]
      ⟨str "/etc/x", none, none⟩ = .error Err.keyError := by
  exact ⟨rfl, rfl⟩

/-- C4, amended: for every File Entry whose `contents` object is present
and whose `source` is absent or empty, with an existing backing asset of
text `C`, `_set_file_source` succeeds, replacing `contents.source` with
`create_utf8_data_source C`, and `_decode_file_content` on the updated
entry returns `C`. -/
theorem c4_external_source_embedded (render : List Nat → Except Err (List Nat)) (fs : FS)
    (path : List Nat) (mo : Option Nat) (co : FileContents) (C : List Nat)
    (hsrc : co.source = none ∨ co.source = some [])
    (hasset : readFS fs (assetKey path) = some C) (hC : ValidText C) :
    set_file_source render fs ⟨path, mo, some co⟩ =
      .ok ⟨path, mo, some ⟨some (create_utf8_data_source C)⟩⟩ ∧
    decode_file_content ⟨path, mo, some ⟨some (create_utf8_data_source C)⟩⟩ = some C := by
  constructor
  · rcases hsrc with h | h <;> simp [set_file_source, h, hasset]
  · exact decode_create_utf8 path mo C hC

/-- C4 witness: the spec's example — empty source, asset content
`"hello\n"` — is embedded and decodes back. -/
theorem c4_external_source_embedded_witness :
    set_file_source (fun s => .ok s) [(str "files/etc/x", str "hello\n")]
        ⟨str "/etc/x", none, some ⟨none⟩⟩ =
      .ok ⟨str "/etc/x", none, some ⟨some (create_utf8_data_source (str "hello\n"))⟩⟩ ∧
    decode_file_content
        ⟨str "/etc/x", none, some ⟨some (create_utf8_data_source (str "hello\n"))⟩⟩ =
      some (str "hello\n") :=
  c4_external_source_embedded (fun s => .ok s) [(str "files/etc/x", str "hello\n")]
    (str "/etc/x") none ⟨none⟩ (str "hello\n") (Or.inl rfl) rfl (by decide)

/-! ## Claim C7 -/

/-- Scanner `closeNow` decides: some split `u = b ++ [c1, c2] ++ c` exists with no
newline in `b`. -/
theorem closeNow_iff (c1 c2 : Nat) (u : List Nat) :
    closeNow c1 c2 u = true ↔
      ∃ b c, u = b ++ [c1, c2] ++ c ∧ ∀ x ∈ b, x ≠ 10 := by
  induction u with
  | nil =>
    rw [show closeNow c1 c2 [] = false from rfl]
    simp only [Bool.false_eq_true, false_iff]
    rintro ⟨b, c, heq, -⟩
    have := congrArg List.length heq
    simp only [List.length_nil, List.length_append, List.length_cons] at this
    omega
  | cons x u' ih =>
    cases u' with
    | nil =>
      rw [show closeNow c1 c2 [x] = false from rfl]
      simp only [Bool.false_eq_true, false_iff]
      rintro ⟨b, c, heq, -⟩
      have := congrArg List.length heq
      simp only [List.length_cons, List.length_nil, List.length_append] at this
      omega
    | cons y t =>
      rw [closeNow, Bool.or_eq_true, Bool.and_eq_true, Bool.and_eq_true,
        beq_iff_eq, beq_iff_eq, bne_iff_ne, ih]
      constructor
      · rintro (⟨rfl, rfl⟩ | ⟨hx, b, c, heq, hb⟩)
        · exact ⟨[], t, rfl, by simp⟩
        · refine ⟨x :: b, c, by simpa using congrArg (List.cons x) heq, ?_⟩
          intro z hz
          rcases List.mem_cons.mp hz with rfl | hz
          · exact hx
          · exact hb z hz
      · rintro ⟨b, c, heq, hb⟩
        cases b with
        | nil =>
          simp only [List.nil_append, List.cons_append, List.cons.injEq] at heq
          exact Or.inl ⟨heq.1, heq.2.1⟩
        | cons z b' =>
          simp only [List.cons_append, List.cons.injEq] at heq
          obtain ⟨rfl, heq'⟩ := heq
          refine Or.inr ⟨hb x (List.mem_cons_self x b'), b', c, by simpa using heq', ?_⟩
          intro w hw
          exact hb w (List.mem_cons_of_mem x hw)

/-- Scanner `closeAfterOne` decides: some split `u = b ++ [c1, c2] ++ c` exists with
`b` non-empty and containing no newline. -/
theorem closeAfterOne_iff (c1 c2 : Nat) (u : List Nat) :
    closeAfterOne c1 c2 u = true ↔
      ∃ b c, u = b ++ [c1, c2] ++ c ∧ b ≠ [] ∧ ∀ x ∈ b, x ≠ 10 := by
  cases u with
  | nil =>
    rw [show closeAfterOne c1 c2 [] = false from rfl]
    simp only [Bool.false_eq_true, false_iff]
    rintro ⟨b, c, heq, -, -⟩
    have := congrArg List.length heq
    simp only [List.length_nil, List.length_append, List.length_cons] at this
    omega
  | cons z rest =>
    rw [closeAfterOne, Bool.and_eq_true, bne_iff_ne, closeNow_iff]
    constructor
    · rintro ⟨hz, b, c, heq, hb⟩
      refine ⟨z :: b, c, by simpa using congrArg (List.cons z) heq,
        List.cons_ne_nil z b, ?_⟩
      intro w hw
      rcases List.mem_cons.mp hw with rfl | hw
      · exact hz
      · exact hb w hw
    · rintro ⟨b, c, heq, hbne, hb⟩
      cases b with
      | nil => exact absurd rfl hbne
      | cons z' b' =>
        simp only [List.cons_append, List.cons.injEq] at heq
        obtain ⟨rfl, heq'⟩ := heq
        refine ⟨hb z (List.mem_cons_self z b'), b', c, by simpa using heq', ?_⟩
        intro w hw
        exact hb w (List.mem_cons_of_mem z hw)

/-- Scanner `findOpen` decides the existence of a regex directive match. -/
theorem findOpen_iff (o1 o2 c1 c2 : Nat) (s : List Nat) :
    findOpen o1 o2 c1 c2 s = true ↔ regexDirectiveProp o1 o2 c1 c2 s := by
  rw [regexDirectiveProp]
  induction s with
  | nil =>
    rw [show findOpen o1 o2 c1 c2 [] = false from rfl]
    simp only [Bool.false_eq_true, false_iff]
    rintro ⟨a, b, c, heq, -, -⟩
    have := congrArg List.length heq
    simp only [List.length_nil, List.length_append, List.length_cons] at this
    omega
  | cons x s' ih =>
    cases s' with
    | nil =>
      rw [show findOpen o1 o2 c1 c2 [x] = false from rfl]
      simp only [Bool.false_eq_true, false_iff]
      rintro ⟨a, b, c, heq, hbne, -⟩
      have := congrArg List.length heq
      simp only [List.length_cons, List.length_nil, List.length_append] at this
      omega
    | cons y t =>
      rw [findOpen, Bool.or_eq_true, Bool.and_eq_true, Bool.and_eq_true,
        beq_iff_eq, beq_iff_eq, closeAfterOne_iff, ih]
      constructor
      · rintro (⟨⟨rfl, rfl⟩, b, c, heq, hbne, hb⟩ | ⟨a, b, c, heq, hbne, hb⟩)
        · refine ⟨[], b, c, ?_, hbne, hb⟩
          subst heq
          simp
        · refine ⟨x :: a, b, c, by simpa using congrArg (List.cons x) heq, hbne, hb⟩
      · rintro ⟨a, b, c, heq, hbne, hb⟩
        cases a with
        | nil =>
          simp only [List.nil_append, List.cons_append, List.cons.injEq] at heq
          obtain ⟨rfl, rfl, heq''⟩ := heq
          exact Or.inl ⟨⟨rfl, rfl⟩, b, c, by simpa using heq'', hbne, hb⟩
        | cons w a' =>
          simp only [List.cons_append, List.cons.injEq] at heq
          obtain ⟨rfl, heq'⟩ := heq
          exact Or.inr ⟨a', b, c, by simpa using heq', hbne, hb⟩

/-- C7, counterexample: the string `"{{\n}}"` contains a substitution
directive — `{{`, the one-character content `"\n"`, then `}}` — yet
`is_jinja` returns `false`, because `.` in Python's `re` does not match a
newline, so `re.search("{{.+}}")` finds nothing. -/
theorem c7_newline_counterexample :
    is_jinja [123, 123, 10, 125, 125] = false ∧
    specLooksLikeTemplate [123, 123, 10, 125, 125] := by
  refine ⟨by decide, Or.inl ⟨[], [10], [], rfl, by decide⟩⟩

/-- C7, amended: `is_jinja` returns `true` exactly when the string contains
`{{` followed by one or more characters, none of them a newline, followed
by `}}` — or likewise `{%` ... `%}` (the directive content may not be empty
and may not span lines, per `re` semantics of `.+`). -/
theorem c7_is_jinja_iff (s : List Nat) :
    is_jinja s = true ↔
      (regexDirectiveProp 123 123 125 125 s ∨ regexDirectiveProp 123 37 37 125 s) := by
  rw [is_jinja, Bool.or_eq_true, findOpen_iff, findOpen_iff]

/-- C7 witness: the amended characterization at concrete strings on both
sides of the boundary. -/
theorem c7_is_jinja_iff_witness :
    (is_jinja (str "a {{ x }} b") = true ↔
      (regexDirectiveProp 123 123 125 125 (str "a {{ x }} b") ∨
       regexDirectiveProp 123 37 37 125 (str "a {{ x }} b"))) ∧
    is_jinja (str "a {{ x }} b") = true :=
  ⟨c7_is_jinja_iff (str "a {{ x }} b"), by decide⟩
